import Mathlib

/-!
Verification of the micronota GFF3 record codec
(`micronota/parsers/gff3.py`): the format sniffer, the field coercions,
the attribute decoder, the record parser `_parse_records` and the record
writer `_IntervalMetadata_to_gff`, embedded shallowly as executable Lean
functions over lists of input lines.
-/

namespace Micronota.Gff3

/-! ## Python string primitives

The source manipulates Python `str` values with `strip`, `split`,
`isdigit`, `isspace` and `startswith`.  These are modelled here on
`String` and `List Char`, restricted to ASCII text (the repository only
feeds ASCII GFF3 data through them).
-/

/-- The six ASCII whitespace characters recognised by Python `str.strip`,
`str.isspace` and `float`. -/
def pyWhite (c : Char) : Bool :=
  c = ' ' || c = '\t' || c = '\n' || c = '\r' || c = '\x0b' || c = '\x0c'

/-- Python `str.strip()` on a character list: drop whitespace from both ends. -/
def pyStripList (cs : List Char) : List Char :=
  ((cs.dropWhile pyWhite).reverse.dropWhile pyWhite).reverse

/-- Python `str.strip()`. -/
def pyStrip (s : String) : String :=
  String.mk (pyStripList s.toList)

/-- Python truth test used by `_line_generator` for skipping blank lines:
`not line or line.isspace()`. -/
def isBlank (s : String) : Bool :=
  s.toList.all pyWhite

/-- Python `str.isdigit()` on ASCII text: non-empty and all decimal digits. -/
def pyIsDigit (s : String) : Bool :=
  !s.toList.isEmpty && s.toList.all Char.isDigit

/-- Decimal value of a digit string, as computed by Python `int(s)` on a
string that passed `isdigit`. -/
def digitsVal (cs : List Char) : Nat :=
  cs.foldl (fun a c => a * 10 + (c.toNat - 48)) 0

/-- Python `s.split(sep)` for a single-character separator, on character
lists: splits at every occurrence, keeping empty pieces. -/
def pySplitList (sep : Char) : List Char → List (List Char)
  | [] => [[]]
  | c :: rest =>
    if c = sep then [] :: pySplitList sep rest
    else
      match pySplitList sep rest with
      | [] => [[c]]
      | g :: gs => (c :: g) :: gs

/-- Python `s.split(sep)` for a single-character separator. -/
def pySplit (sep : Char) (s : String) : List String :=
  (pySplitList sep s.toList).map String.mk

/-- Python `s.startswith(pre)`. -/
def pyStartsWith (s pre : String) : Bool :=
  s.toList.take pre.toList.length == pre.toList

/-! ## Python float model

`_is_float` calls the Python builtin `float(s)`.  `float` accepts
optional surrounding whitespace, an optional sign, and either a
decimal/scientific number, `inf`/`infinity` or `nan` (case-insensitive).
Finite values are modelled by the exact rational value of the literal
(the rounding of that rational to binary64 is not modelled; literals
appearing in GFF3 data are short enough for the distinction never to
merge two distinct literals handled by the claims). -/

/-- A Python float result: a finite value (exact rational of the
literal), a signed infinity, or a NaN. -/
inductive PFloat where
  | finite (q : Rat)
  | inf (pos : Bool)
  | nan
deriving DecidableEq

/-- Python `==` on floats: NaN compares unequal to everything, including
itself. -/
def PFloat.pyEq : PFloat → PFloat → Bool
  | .finite a, .finite b => a == b
  | .inf a, .inf b => a == b
  | _, _ => false

/-- Parse an optional exponent suffix `e[sign]digits` (it must consume
the whole remaining input); returns the exponent. -/
def parseExpSuffix : List Char → Option Int
  | [] => some 0
  | c :: rest =>
    if c = 'e' || c = 'E' then
      let (neg, ds) :=
        match rest with
        | '+' :: t => (false, t)
        | '-' :: t => (true, t)
        | t => (false, t)
      if ds.isEmpty || !ds.all Char.isDigit then none
      else some (if neg then -(digitsVal ds : Int) else (digitsVal ds : Int))
    else none

/-- Value of a numeric literal `ip . fp e±ex` as an exact rational. -/
def ratOfParts (neg : Bool) (ip fp : List Char) (ex : Int) : Rat :=
  let mantissa : Rat :=
    (digitsVal ip : Rat) + (digitsVal fp : Rat) / ((10 : Rat) ^ fp.length)
  let scaled := mantissa * (10 : Rat) ^ ex
  if neg then -scaled else scaled

/-- Parse the digits of a number after the optional sign:
`digits [. digits] [exp]` or `. digits [exp]`. -/
def parseNumberBody (neg : Bool) (cs : List Char) : Option PFloat :=
  let ip := cs.takeWhile Char.isDigit
  let rest := cs.dropWhile Char.isDigit
  match rest with
  | '.' :: rest2 =>
    let fp := rest2.takeWhile Char.isDigit
    let rest3 := rest2.dropWhile Char.isDigit
    if ip.isEmpty && fp.isEmpty then none
    else (parseExpSuffix rest3).map (fun ex => .finite (ratOfParts neg ip fp ex))
  | _ =>
    if ip.isEmpty then none
    else (parseExpSuffix rest).map (fun ex => .finite (ratOfParts neg ip [] ex))

/-- Model of the Python builtin `float(s)`: `none` when `float` raises
`ValueError`. -/
def pyFloat? (s : String) : Option PFloat :=
  let cs := pyStripList s.toList
  let (neg, body) :=
    match cs with
    | '+' :: t => (false, t)
    | '-' :: t => (true, t)
    | t => (false, t)
  let low := body.map Char.toLower
  if low = "inf".toList || low = "infinity".toList then some (.inf !neg)
  else if low = "nan".toList then some .nan
  else parseNumberBody neg body

/-- Function `_is_float` from gff3.py: `float(input)` succeeds. -/
def is_float (s : String) : Bool :=
  (pyFloat? s).isSome

/-! ## Parsed values -/

/-- A value produced by `_parse_required`: a Python `int`, `float` or
`str`. -/
inductive PValue where
  | intv (n : Int)
  | floatv (f : PFloat)
  | strv (s : String)
deriving DecidableEq

/-- Python `==` on parsed values: numeric values compare across
`int`/`float`, strings only to strings. -/
def PValue.pyEq : PValue → PValue → Bool
  | .intv a, .intv b => a == b
  | .intv a, .floatv f => PFloat.pyEq (.finite (a : Rat)) f
  | .floatv f, .intv a => PFloat.pyEq f (.finite (a : Rat))
  | .floatv f, .floatv g => PFloat.pyEq f g
  | .strv a, .strv b => a == b
  | _, _ => false

/-- Function `_parse_required` from gff3.py: digits coerce to `int`, floatable
strings to `float`, anything else stays a string. -/
def parse_required (s : String) : PValue :=
  if pyIsDigit s then .intv (digitsVal s.toList)
  else
    match pyFloat? s with
    | some f => .floatv f
    | none => .strv s

/-! ## Attribute decoder -/

/-- The unpacking `_type, _val = f.split('=')` in `_parse_attr`:
succeeds only when the split has exactly two pieces (exactly one `=`),
otherwise the `ValueError` handler yields a pair of empty strings; both
components are then stripped. -/
def splitEq (f : String) : String × String :=
  match pySplitList '=' f.toList with
  | [t, v] => (pyStrip (String.mk t), pyStrip (String.mk v))
  | _ => ("", "")

/-- Function `_parse_attr` from gff3.py: split the 9th column on `;` and decode
every sub-field with `splitEq`, collecting tags and values in order. -/
def parse_attr (s : String) : List String × List String :=
  let fields := pySplit ';' s
  (fields.map (fun f => (splitEq f).1), fields.map (fun f => (splitEq f).2))

/-- Split a character list at the first occurrence of `sep`; `none` when
`sep` does not occur. -/
def splitAtFirst (sep : Char) : List Char → Option (List Char × List Char)
  | [] => none
  | c :: rest =>
    if c = sep then some ([], rest)
    else (splitAtFirst sep rest).map (fun p => (c :: p.1, p.2))

/-- Decoder written from the words of the claim: each sub-field is split
on the FIRST `=` into a stripped (tag, value) pair, and a sub-field
without `=` decodes to two empty strings. -/
def attrDecodeSpec (s : String) : List String × List String :=
  let dec : String → String × String := fun f =>
    match splitAtFirst '=' f.toList with
    | some (t, v) => (pyStrip (String.mk t), pyStrip (String.mk v))
    | none => ("", "")
  let fields := pySplit ';' s
  (fields.map (fun f => (dec f).1), fields.map (fun f => (dec f).2))

/-- One sub-field, decoded as the amended claim words it: exactly one
`=` splits there into a stripped (tag, value) pair; no `=` or several
decode to two empty strings. -/
def splitEqAmended (f : String) : String × String :=
  if f.toList.count '=' = 1 then
    match splitAtFirst '=' f.toList with
    | some (t, v) => (pyStrip (String.mk t), pyStrip (String.mk v))
    | none => ("", "")
  else ("", "")

/-- Decoder written from the amended claim. -/
def attrDecodeAmended (s : String) : List String × List String :=
  let fields := pySplit ';' s
  (fields.map (fun f => (splitEqAmended f).1),
   fields.map (fun f => (splitEqAmended f).2))

/-! ## Features, records and the record parser

`skbio.metadata.Feature` is an immutable mapping; `_parse_records`
always builds it over the seven keys of `_ANNOTATION_HEADERS` in a fixed
order, so a parsed feature is modelled as a seven-field structure.
Feature equality (used when a `Feature` serves as a `dict` key) is the
Python pointwise equality of the seven values. -/

/-- A parsed GFF3 feature: `Feature(zip(_ANNOTATION_HEADERS, _annot))`
with headers SEQID, SOURCE, TYPE, SCORE, STRAND, PHASE, ATTR. -/
structure PFeature where
  seqid : PValue
  source : PValue
  ftype : PValue
  score : PValue
  strand : PValue
  phase : PValue
  attr : List String × List String
deriving DecidableEq

/-- Python `==` on parsed features: all seven fields equal. -/
def PFeature.pyEq (a b : PFeature) : Bool :=
  a.seqid.pyEq b.seqid && a.source.pyEq b.source && a.ftype.pyEq b.ftype &&
  a.score.pyEq b.score && a.strand.pyEq b.strand && a.phase.pyEq b.phase &&
  a.attr == b.attr

/-- An interval: the parsed `(START, END)` pair from columns 4 and 5. -/
abbrev Interval := PValue × PValue

/-- A record accumulated by `_parse_records`: a Python dict from
`Feature` to interval, modelled as an insertion-ordered association
list. -/
abbrev Record := List (PFeature × Interval)

/-- Dict assignment, as in the parser loop: replace the value of
an existing equal key in place (the stored key object is kept), else
append a new entry. -/
def dictInsert (d : Record) (k : PFeature) (v : Interval) : Record :=
  if d.any (fun e => e.1.pyEq k) then
    d.map (fun e => if e.1.pyEq k then (e.1, v) else e)
  else d ++ [(k, v)]

/-- The i-th column of a split line (total lookup; callers guard the
length as the source guards it by raising `IndexError`). -/
def col (tabs : List String) (i : Nat) : String :=
  tabs.getD i ""

/-- Decode one data line body of `_parse_records` (the line is already
stripped): split on tabs, take columns 0,1,2,5,6,7 as the annotation
fields, column 8 as the raw attribute string and columns 3,4 as the
interval.  `tabs[8]` raises `IndexError` when the line has fewer than 9
columns, modelled as `none`. -/
def decodeLine (line : String) : Option (PFeature × Interval) :=
  let tabs := pySplit '\t' line
  if tabs.length < 9 then none
  else
    some
      ({ seqid := parse_required (col tabs 0)
         source := parse_required (col tabs 1)
         ftype := parse_required (col tabs 2)
         score := parse_required (col tabs 5)
         strand := parse_required (col tabs 6)
         phase := parse_required (col tabs 7)
         attr := parse_attr (col tabs 8) },
       (parse_required (col tabs 3), parse_required (col tabs 4)))

/-- The one exception `_parse_records` can raise: the `IndexError` from
`tabs[8]` on a short line. -/
inductive ParseErr where
  | indexErr
deriving DecidableEq

/-- Loop of `_parse_records` over the stripped, non-blank lines.  State:
`st` is the `seqID` variable (`none` models Python `False`), `feats` the
accumulating dict, `acc` the records yielded so far.  On a short data
line the generator raises `IndexError`: the records already yielded
stand and nothing further is produced. -/
def parseRecordsGo (st : Option PValue) (feats : Record) (acc : List Record) :
    List String → List Record × Option ParseErr
  | [] => (acc ++ [feats], none)
  | line :: rest =>
    let l := pyStrip line
    if isBlank l then parseRecordsGo st feats acc rest
    else if pyStartsWith l "#" then parseRecordsGo st feats acc rest
    else
      match decodeLine l with
      | none => (acc, some .indexErr)
      | some (f, iv) =>
        match st with
        | none => parseRecordsGo (some f.seqid) (dictInsert feats f iv) acc rest
        | some s =>
          if f.seqid.pyEq s then
            parseRecordsGo (some f.seqid) (dictInsert feats f iv) acc rest
          else
            parseRecordsGo none [(f, iv)] (acc ++ [feats]) rest

/-- Function `_parse_records` from gff3.py, over the list of raw input lines:
the yielded records in order, plus the terminal `IndexError` if a data
line was too short. -/
def parse_records (lines : List String) : List Record × Option ParseErr :=
  parseRecordsGo none [] [] lines

/-! ## Format sniffer -/

/-- Modelled from the spec and the skbio library helper
`_too_many_blanks(fh, max_blanks)` (skbio is an external dependency, not
part of this repository): count the blank lines at the start of the
stream and report whether their number exceeds `maxBlanks`. -/
def too_many_blanks (maxBlanks : Nat) (lines : List String) : Bool :=
  maxBlanks < (lines.takeWhile isBlank).length

/-- The first non-blank line of the stream, as produced by the skbio
helper `_line_generator(fh, skip_blanks=True, strip=False)`. -/
def firstNonBlank (lines : List String) : Option String :=
  (lines.dropWhile isBlank).head?

/-- Function `_gff_sniffer` from gff3.py: reject when there are too many leading
blanks, reject an exhausted stream, otherwise test whether the first
non-blank line starts with the literal `##gff-version 3`.  The second
component models the always-empty metadata dict. -/
def gff_sniffer (lines : List String) : Bool × List (String × String) :=
  if too_many_blanks 5 lines then (false, [])
  else
    match firstNonBlank lines with
    | none => (false, [])
    | some line => (pyStartsWith line "##gff-version 3", [])

/-! ## Record writer

`_IntervalMetadata_to_gff` receives an arbitrary `IntervalMetadata`
object: its `features` dict maps `Feature` mappings (arbitrary keys and
values, as the tests build them by hand) to interval tuples.  A writer
feature is therefore an association list from column names to values; a
value is either a scalar (`str`/`int`/`float`), a plain `(tag, value)`
pair of strings, or a (tags, values) pair of string tuples. -/

/-- A value stored in a writer-side `Feature`. -/
inductive WVal where
  | prim (v : PValue)
  | attrPair (tag val : String)
  | attrTup (tags vals : List String)
deriving DecidableEq

/-- A writer-side `Feature`: ordered mapping from column names to
values. -/
abbrev WFeature := List (String × WVal)

/-- A writer-side record: the `features` dict of an `IntervalMetadata`,
in iteration order, each feature mapped to its interval tuple. -/
abbrev WRecord := List (WFeature × List PValue)

/-- The errors `_IntervalMetadata_to_gff` can raise: the three
`GFFFormatError` cases, or an ordinary Python exception escaping from
`_attr_to_list` when the ATTR value is not a pair of sequences. -/
inductive WriteErr where
  | missingColumns
  | badInterval
  | headerMismatch
  | pyExc
deriving DecidableEq

/-- The three `GFFFormatError` raises, as opposed to a stray Python
exception. -/
def WriteErr.isFormatErr : WriteErr → Bool
  | .pyExc => false
  | _ => true

/-- List `_ANNOTATION_HEADERS` from gff3.py. -/
def annotationHeaders : List String :=
  ["SEQID", "SOURCE", "TYPE", "SCORE", "STRAND", "PHASE", "ATTR"]

/-- List `_GFF_HEADERS` from gff3.py. -/
def gffHeaders : List String :=
  ["SEQID", "SOURCE", "TYPE", "START", "END", "SCORE", "STRAND", "PHASE", "ATTR"]

/-- Simplified model of Python `repr` on floats, exact on the decimal
fractions the codec produces (integral values get a trailing `.0`; the
scientific notation Python switches to at extreme magnitudes is not
modelled). -/
def PFloat.pyRepr : PFloat → String
  | .nan => "nan"
  | .inf true => "inf"
  | .inf false => "-inf"
  | .finite q =>
    let k := (((List.range 40).find? fun k => (q * (10 : Rat) ^ k).den == 1).getD 0)
    let m := q * (10 : Rat) ^ k
    if m.den != 1 then toString q
    else
      let sign := if m.num < 0 then "-" else ""
      let n := m.num.natAbs
      let ipart := n / 10 ^ k
      let fdigits := Nat.toDigits 10 (n % 10 ^ k)
      let fpad := List.replicate (k - fdigits.length) '0' ++ fdigits
      if k = 0 then sign ++ toString ipart ++ ".0"
      else sign ++ toString ipart ++ "." ++ String.mk fpad

/-- Python `str` on a scalar value. -/
def PValue.pyStr : PValue → String
  | .intv n => toString n
  | .floatv f => f.pyRepr
  | .strv s => s

/-- The single-quote character Python `repr` puts around strings. -/
def sq : String := String.mk [Char.ofNat 39]

/-- Python `str` on a writer value (tuples render with their `repr`;
modelled for quote-free ASCII strings, the only ones the repository
handles). -/
def WVal.pyStr : WVal → String
  | .prim v => v.pyStr
  | .attrPair t v => "(" ++ sq ++ t ++ sq ++ ", " ++ sq ++ v ++ sq ++ ")"
  | .attrTup ts vs =>
    let tup : List String → String := fun xs =>
      "(" ++ String.intercalate ", " (xs.map fun x => sq ++ x ++ sq) ++
        (if xs.length = 1 then ",)" else ")")
    "(" ++ tup ts ++ ", " ++ tup vs ++ ")"

/-- Function `_attr_to_list` from gff3.py.  A (tags, values) pair of tuples is
re-joined as `tag=value` pieces separated by `;`; a plain pair of
strings is joined with `=`; iterating a scalar either raises
(`int`/`float` are not iterable, a short string has no index 1) or
joins the first two characters. -/
def attr_to_list : WVal → Except WriteErr String
  | .attrTup tags vals =>
    .ok (String.intercalate ";" ((tags.zip vals).map fun p => p.1 ++ "=" ++ p.2))
  | .attrPair t v => .ok (t ++ "=" ++ v)
  | .prim (.strv s) =>
    match s.toList with
    | c0 :: c1 :: _ => .ok (String.mk [c0, '=', c1])
    | _ => .error .pyExc
  | .prim _ => .error .pyExc

/-- Lookup of `features[annot]` for a writer feature (the writer only looks keys
up after checking they are present). -/
def wLookup (f : WFeature) (k : String) : WVal :=
  (((f.find? fun p => p.1 == k).map Prod.snd).getD (.prim (.strv "")))

/-- The three validation checks at the top of the writer loop, in source
order: seven columns, two interval components, all predefined header
names present. -/
def checkEntry (f : WFeature) (iv : List PValue) : Option WriteErr :=
  if f.length ≠ 7 then some .missingColumns
  else if iv.length ≠ 2 then some .badInterval
  else if !(annotationHeaders.all fun h => f.any fun p => p.1 == h) then
    some .headerMismatch
  else none

/-- One `tab` cell of the writer loop over `_GFF_HEADERS`: START and
END come from the interval, ATTR from `_attr_to_list`, the rest from the
feature, each passed through `str`. -/
def cellOf (f : WFeature) (iv : List PValue) (h : String) :
    Except WriteErr String :=
  if h == "START" then .ok (iv.getD 0 (.strv "")).pyStr
  else if h == "END" then .ok (iv.getD 1 (.strv "")).pyStr
  else if h == "ATTR" then attr_to_list (wLookup f h)
  else .ok (wLookup f h).pyStr

/-- Collect the cells of a line, propagating the first raise. -/
def collectCells : List (Except WriteErr String) → Except WriteErr (List String)
  | [] => .ok []
  | .error e :: _ => .error e
  | .ok c :: rest => (collectCells rest).map (c :: ·)

/-- Build the nine `tab` cells of one output line by walking
`_GFF_HEADERS` and join them with tabs. -/
def entryLine (f : WFeature) (iv : List PValue) : Except WriteErr String :=
  (collectCells (gffHeaders.map (cellOf f iv))).map (String.intercalate "\t")

/-- Writer loop over the `features` dict: validate each entry, then
write its line; the sink keeps every line written before a raise. -/
def writeGo : WRecord → List String → List String × Option WriteErr
  | [], out => (out, none)
  | (f, iv) :: rest, out =>
    match checkEntry f iv with
    | some e => (out, some e)
    | none =>
      match entryLine f iv with
      | .error e => (out, some e)
      | .ok l => writeGo rest (out ++ [l])

/-- Function `_IntervalMetadata_to_gff` from gff3.py: write the fixed
`##gff-version 3` header line first, then one line per (feature,
interval) entry.  Result: the lines handed to the sink, and the raised
error if any. -/
def IntervalMetadata_to_gff (r : WRecord) : List String × Option WriteErr :=
  writeGo r ["##gff-version 3"]

/-! ## Bridging parsed records to the writer -/

/-- A parsed `Feature` seen as a writer-side mapping: the seven
annotation headers in construction order. -/
def featureToW (f : PFeature) : WFeature :=
  [("SEQID", .prim f.seqid), ("SOURCE", .prim f.source),
   ("TYPE", .prim f.ftype), ("SCORE", .prim f.score),
   ("STRAND", .prim f.strand), ("PHASE", .prim f.phase),
   ("ATTR", .attrTup f.attr.1 f.attr.2)]

/-- A parsed record handed to the writer. -/
def recordToW (r : Record) : WRecord :=
  r.map fun e => (featureToW e.1, [e.2.1, e.2.2])

/-- Python `==` on (feature, interval) pairs. -/
def pairPyEq (p q : PFeature × Interval) : Bool :=
  p.1.pyEq q.1 && p.2.1.pyEq q.2.1 && p.2.2.pyEq q.2.2

/-- Set-equality of two records on their (feature, interval) pairs,
ignoring order. -/
def recSetEq (r s : Record) : Bool :=
  (r.all fun p => s.any (pairPyEq p)) && (s.all fun p => r.any (pairPyEq p))

/-! ## Spec-side companions and auxiliary notions for the claims -/

/-- A raw input line that `_parse_records` treats as data: neither blank
nor a comment after stripping. -/
def isDataLine (l : String) : Bool :=
  !isBlank (pyStrip l) && !pyStartsWith (pyStrip l) "#"

/-- An ATTR value of the (tags, values) shape the data model
prescribes. -/
def isAttrShaped : WVal → Bool
  | .attrPair _ _ => true
  | .attrTup _ _ => true
  | .prim _ => false

/-- The ATTR re-serialization as the claim words it:
`tag1=value1;tag2=value2;...`, a single pair without separator. -/
def specAttrStr : WVal → String
  | .attrTup ts vs =>
    String.intercalate ";" ((ts.zip vs).map fun p => p.1 ++ "=" ++ p.2)
  | .attrPair t v => t ++ "=" ++ v
  | .prim v => v.pyStr

/-- Validity of one entry as the claim words it: no required field
missing, the key set exactly the required header set, and the interval
of exactly two components. -/
def specEntryValid (f : WFeature) (iv : List PValue) : Bool :=
  (annotationHeaders.all fun h => (f.map Prod.fst).contains h) &&
  ((f.map Prod.fst).all fun k => annotationHeaders.contains k) &&
  iv.length == 2

/-- One output line as the claim words it: nine tab-separated columns in
the fixed order SEQID, SOURCE, TYPE, START, END, SCORE, STRAND, PHASE,
ATTR, START and END taken from the interval. -/
def specLine (f : WFeature) (iv : List PValue) : String :=
  String.intercalate "\t"
    [(wLookup f "SEQID").pyStr, (wLookup f "SOURCE").pyStr,
     (wLookup f "TYPE").pyStr,
     (iv.getD 0 (.strv "")).pyStr, (iv.getD 1 (.strv "")).pyStr,
     (wLookup f "SCORE").pyStr, (wLookup f "STRAND").pyStr,
     (wLookup f "PHASE").pyStr, specAttrStr (wLookup f "ATTR")]

/-- A text stream instance: the text it carries plus an identity that
distinguishes independent instances over the same content. -/
structure TextStream where
  handle : Nat
  content : List String

/-- Run `_parse_records` on a stream instance. -/
def parseStream (fh : TextStream) : List Record × Option ParseErr :=
  parse_records fh.content

/-! ## Concrete example data -/

/-- A well-formed GFF3 data line on landmark A. -/
def exLineA : String := "A\t.\t.\t1\t2\t.\t.\t.\tID=x"

/-- A well-formed GFF3 data line on landmark B. -/
def exLineB : String := "B\t.\t.\t3\t4\t.\t.\t.\tID=y"

/-- A well-formed GFF3 data line on landmark C. -/
def exLineC : String := "C\t.\t.\t5\t6\t.\t.\t.\tID=z"

/-- A well-formed GFF3 stream with three data lines on three distinct
landmarks. -/
def exStream : List String := ["##gff-version 3", exLineA, exLineB, exLineC]

/-- The second record the parser yields on `exStream`. -/
def exRec2 : Record := (parse_records exStream).1.getD 1 []

/-- A data line decoding to the same feature as `exLineA` but with a
different interval. -/
def exLineA2 : String := "A\t.\t.\t9\t10\t.\t.\t.\tID=x"

/-- The feature decoded from `exLineA` (and from `exLineA2`). -/
def exFeatureA : PFeature :=
  { seqid := .strv "A", source := .strv ".", ftype := .strv ".",
    score := .strv ".", strand := .strv ".", phase := .strv ".",
    attr := (["ID"], ["x"]) }

/-- A writer feature with six columns: STRAND is missing. -/
def exBadFeature : WFeature :=
  [("SEQID", .prim (.strv "gi")), ("SOURCE", .prim (.strv "minced")),
   ("TYPE", .prim (.strv "CRISPR")), ("SCORE", .prim (.intv 5)),
   ("PHASE", .prim (.strv ".")), ("ATTR", .attrPair "ID" "CRISPR1")]

/-- A complete writer feature with all seven columns. -/
def exGoodFeature : WFeature :=
  [("SEQID", .prim (.strv "gi")), ("SOURCE", .prim (.strv "minced")),
   ("TYPE", .prim (.strv "CRISPR")), ("SCORE", .prim (.intv 5)),
   ("STRAND", .prim (.strv ".")), ("PHASE", .prim (.strv ".")),
   ("ATTR", .attrPair "ID" "CRISPR1")]

/-- A two-component interval. -/
def exInterval : List PValue := [.intv 156460, .intv 156767]

/-! ## Theorems for the claims -/

/-- C1: the round-trip property fails on the code.  On the well-formed
stream `exStream` the parser yields a second record holding the lines of
two distinct landmarks (the grouping state is reset to `False` instead
of the new SEQID after a yield); encoding that record succeeds, but
re-parsing the encoded text yields two records, neither of which is
set-equal to the original record. -/
theorem C1_roundtrip_fails :
    (parse_records exStream).2 = none ∧
    exRec2.length = 2 ∧
    (IntervalMetadata_to_gff (recordToW exRec2)).2 = none ∧
    (parse_records (IntervalMetadata_to_gff (recordToW exRec2)).1).1.length = 2 ∧
    ∀ r ∈ (parse_records (IntervalMetadata_to_gff (recordToW exRec2)).1).1,
      recSetEq r exRec2 = false := by
  decide

/-- C2: a yielded record is not confined to one SEQID.  On `exStream`
the parser yields a second record whose two features carry the distinct
SEQIDs "B" and "C", because after a yield the accumulating SEQID is
reset to `False`, which accepts the next line unconditionally. -/
theorem C2_record_mixes_seqids :
    (parse_records exStream).1.length = 2 ∧
    exRec2.map (fun e => e.1.seqid) = [.strv "B", .strv "C"] := by
  decide

/-- C3 counterexample: on a record whose single feature lacks STRAND the
writer raises a format error, yet the sink has already received the
header line — output is emitted on failure, contradicting the claim. -/
theorem C3_counterexample :
    (IntervalMetadata_to_gff [(exBadFeature, exInterval)]).2 =
      some .missingColumns ∧
    (IntervalMetadata_to_gff [(exBadFeature, exInterval)]).1 =
      ["##gff-version 3"] ∧
    (IntervalMetadata_to_gff [(exBadFeature, exInterval)]).1 ≠ [] := by
  decide

/-- Splitting never yields an empty list of groups. -/
theorem pySplitList_ne_nil (sep : Char) (cs : List Char) :
    pySplitList sep cs ≠ [] := by
  cases cs with
  | nil => simp [pySplitList]
  | cons c rest =>
    by_cases hc : c = sep
    · simp [pySplitList, hc]
    · simp only [pySplitList, if_neg hc]
      cases pySplitList sep rest <;> simp

/-- Splitting peels groups off at the first separator occurrence. -/
theorem pySplitList_eq_splitAtFirst (sep : Char) (cs : List Char) :
    pySplitList sep cs =
      match splitAtFirst sep cs with
      | none => [cs]
      | some (a, b) => a :: pySplitList sep b := by
  induction cs with
  | nil => rfl
  | cons c rest ih =>
    by_cases hc : c = sep
    · subst hc
      simp [pySplitList, splitAtFirst]
    · simp only [pySplitList, if_neg hc, splitAtFirst]
      cases h : splitAtFirst sep rest with
      | none => rw [ih, h]; simp
      | some p => obtain ⟨a, b⟩ := p; rw [ih, h]; simp

/-- No separator occurs exactly when `splitAtFirst` finds nothing. -/
theorem splitAtFirst_none_iff (sep : Char) (cs : List Char) :
    splitAtFirst sep cs = none ↔ cs.count sep = 0 := by
  induction cs with
  | nil => simp [splitAtFirst]
  | cons c rest ih =>
    by_cases hc : c = sep
    · subst hc
      simp [splitAtFirst, List.count_cons]
    · simp [splitAtFirst, Option.map_eq_none', List.count_cons, hc, ih]

/-- A successful `splitAtFirst` decomposes the list around the first
separator occurrence. -/
theorem splitAtFirst_some (sep : Char) (cs : List Char) :
    ∀ a b, splitAtFirst sep cs = some (a, b) →
      cs = a ++ sep :: b ∧ a.count sep = 0 := by
  induction cs with
  | nil => intro a b h; simp [splitAtFirst] at h
  | cons c rest ih =>
    intro a b h
    by_cases hc : c = sep
    · subst hc
      simp only [splitAtFirst, if_pos rfl, Option.some.injEq, Prod.mk.injEq] at h
      obtain ⟨rfl, rfl⟩ := h
      simp
    · simp only [splitAtFirst, if_neg hc] at h
      cases hs : splitAtFirst sep rest with
      | none => rw [hs] at h; simp at h
      | some p =>
        rw [hs] at h
        simp only [Option.map_some', Option.some.injEq, Prod.mk.injEq] at h
        obtain ⟨rfl, rfl⟩ := h
        obtain ⟨h1, h2⟩ := ih p.1 p.2 (by rw [hs])
        refine ⟨by simp [h1], ?_⟩
        simp [List.count_cons, h2, hc]

/-- The decode of one attribute sub-field agrees with the amended
wording: exactly one `=` splits there, otherwise the pair is empty. -/
theorem splitEq_eq_amended (f : String) : splitEq f = splitEqAmended f := by
  unfold splitEq splitEqAmended
  rw [pySplitList_eq_splitAtFirst]
  cases hs : splitAtFirst '=' f.toList with
  | none =>
    have hc : f.toList.count '=' = 0 := (splitAtFirst_none_iff _ _).mp hs
    simp [hc]
  | some p =>
    obtain ⟨a, b⟩ := p
    obtain ⟨h1, h2⟩ := splitAtFirst_some '=' f.toList a b hs
    have hcount : f.toList.count '=' = b.count '=' + 1 := by
      rw [h1]
      simp [List.count_append, List.count_cons, h2]
    have hcount2 : List.count '=' f.data = b.count '=' + 1 := hcount
    dsimp only
    rw [pySplitList_eq_splitAtFirst]
    cases hb : splitAtFirst '=' b with
    | none =>
      have hcb : b.count '=' = 0 := (splitAtFirst_none_iff _ _).mp hb
      simp [hcount2, hcb]
    | some q =>
      obtain ⟨x, y⟩ := q
      have hcb : b.count '=' ≠ 0 := by
        intro h0
        have hnone := (splitAtFirst_none_iff '=' b).mpr h0
        simp [hb] at hnone
      have hne : List.count '=' f.data ≠ 1 := by
        rw [hcount2]; omega
      cases hy : pySplitList '=' y with
      | nil => exact absurd hy (pySplitList_ne_nil '=' y)
      | cons z zs => simp [hy, hne]

/-- C5 counterexample: on the sub-field `a=b=c` the code decodes to a
pair of empty strings (the two-way unpacking of `split('=')` raises),
not to the claimed first-`=` split ("a", "b=c"). -/
theorem C5_counterexample :
    parse_attr "a=b=c" = ([""], [""]) ∧
    attrDecodeSpec "a=b=c" = (["a"], ["b=c"]) ∧
    parse_attr "a=b=c" ≠ attrDecodeSpec "a=b=c" := by
  decide

/-- C5 (amended): `_parse_attr` splits the raw column on `;`; a
sub-field containing exactly one `=` decodes to the stripped (tag,
value) pair and any other sub-field to two empty strings; the two
returned sequences have equal length and preserve input order; in
particular "ID=CRISPR1" decodes to (("ID",), ("CRISPR1",)). -/
theorem C5_attr_decoder :
    (∀ s, parse_attr s = attrDecodeAmended s) ∧
    (∀ s, (parse_attr s).1.length = (parse_attr s).2.length) ∧
    parse_attr "ID=CRISPR1" = (["ID"], ["CRISPR1"]) := by
  refine ⟨?_, ?_, by decide⟩
  · intro s
    unfold parse_attr attrDecodeAmended
    simp [splitEq_eq_amended]
  · intro s
    unfold parse_attr
    simp

/-- C6: `_parse_required` coerces all-digit strings to `int`, otherwise
floatable strings to `float`, and keeps everything else a string; in
particular "123" becomes the integer 123, "1.5" the float 3/2, and the
placeholder "." stays the string ".". -/
theorem C6_required_coercion :
    (∀ s, pyIsDigit s = true → parse_required s = .intv (digitsVal s.toList)) ∧
    (∀ s f, pyIsDigit s = false → pyFloat? s = some f →
      parse_required s = .floatv f) ∧
    (∀ s, pyIsDigit s = false → is_float s = false → parse_required s = .strv s) ∧
    parse_required "123" = .intv 123 ∧
    parse_required "1.5" = .floatv (.finite (3 / 2)) ∧
    parse_required "." = .strv "." := by
  refine ⟨?_, ?_, ?_, by decide, ?_, by decide⟩
  · intro s h
    simp [parse_required, h]
  · intro s f h hf
    simp [parse_required, h, hf]
  · intro s h hf
    unfold is_float at hf
    cases hp : pyFloat? s with
    | none => simp [parse_required, h, hp]
    | some f => rw [hp] at hf; simp at hf
  · have hq : ratOfParts false ['1'] ['5'] 0 = 3 / 2 := by
      have d1 : digitsVal ['1'] = 1 := by decide
      have d5 : digitsVal ['5'] = 5 := by decide
      unfold ratOfParts
      rw [d1, d5]
      norm_num
    have hf : pyFloat? "1.5" = some (.finite (3 / 2)) := by
      have hr : pyFloat? "1.5" = some (.finite (ratOfParts false ['1'] ['5'] 0)) := rfl
      rw [hr, hq]
    have hd : pyIsDigit "1.5" = false := by decide
    simp [parse_required, hd, hf]

/-- Witness for C6 on the all-digit input "123". -/
theorem C6_required_coercion_witness :
    parse_required "123" = PValue.intv 123 :=
  C6_required_coercion.1 "123" (by decide)

/-- C7: the sniffer answers `(False, {})` when the leading-blanks
heuristic triggers; otherwise it answers `(True, {})` exactly when the
first non-blank line starts with the literal `##gff-version 3`; a
stream with no non-blank line yields `(False, {})` without raising. -/
theorem C7_sniffer_contract (lines : List String) :
    (too_many_blanks 5 lines = true → gff_sniffer lines = (false, [])) ∧
    (too_many_blanks 5 lines = false →
      ((gff_sniffer lines).1 = true ↔
        ∃ l, firstNonBlank lines = some l ∧
          pyStartsWith l "##gff-version 3" = true)) ∧
    (firstNonBlank lines = none → gff_sniffer lines = (false, [])) := by
  refine ⟨?_, ?_, ?_⟩
  · intro h
    simp [gff_sniffer, h]
  · intro h
    cases hf : firstNonBlank lines with
    | none => simp [gff_sniffer, h, hf]
    | some l => simp [gff_sniffer, h, hf]
  · intro h
    by_cases ht : too_many_blanks 5 lines = true
    · simp [gff_sniffer, ht]
    · simp only [Bool.not_eq_true] at ht
      simp [gff_sniffer, ht, h]

/-- Witness for C7: a stream opening with the header token sniffs
positive; a stream of six blank lines before data sniffs negative. -/
theorem C7_sniffer_contract_witness :
    (gff_sniffer ["##gff-version 3"]).1 = true ∧
    gff_sniffer ["", "", "", "", "", "", "x"] = (false, []) :=
  ⟨((C7_sniffer_contract ["##gff-version 3"]).2.1 (by decide)).mpr
      ⟨"##gff-version 3", by decide, by decide⟩,
   (C7_sniffer_contract ["", "", "", "", "", "", "x"]).1 (by decide)⟩

/-- The writer loop only ever appends to what was already handed to the
sink. -/
theorem writeGo_appends (r : WRecord) :
    ∀ out, ∃ add, (writeGo r out).1 = out ++ add := by
  induction r with
  | nil => intro out; exact ⟨[], by simp [writeGo]⟩
  | cons e rest ih =>
    intro out
    obtain ⟨f, iv⟩ := e
    cases hc : checkEntry f iv with
    | some err => exact ⟨[], by simp [writeGo, hc]⟩
    | none =>
      cases hl : entryLine f iv with
      | error err => exact ⟨[], by simp [writeGo, hc, hl]⟩
      | ok l =>
        obtain ⟨add, ha⟩ := ih (out ++ [l])
        exact ⟨l :: add, by simp [writeGo, hc, hl, ha]⟩

/-- C3 (amended): when the writer raises a format error the sink has
already received the `##gff-version 3` header line (and the lines of the
entries preceding the offending one): the failure leaves partial output
beginning with the header, not an untouched sink. -/
theorem C3_partial_output (r : WRecord)
    (h : (IntervalMetadata_to_gff r).2.isSome = true) :
    ∃ rest, (IntervalMetadata_to_gff r).1 = "##gff-version 3" :: rest := by
  obtain ⟨add, ha⟩ := writeGo_appends r ["##gff-version 3"]
  exact ⟨add, by simpa [IntervalMetadata_to_gff] using ha⟩

/-- Witness for the amended C3 on a record missing STRAND. -/
theorem C3_partial_output_witness :
    ∃ rest, (IntervalMetadata_to_gff [(exBadFeature, exInterval)]).1 =
      "##gff-version 3" :: rest :=
  C3_partial_output [(exBadFeature, exInterval)] (by decide)

/-- Decoding a line fails exactly on a line with fewer than nine
tab-separated columns. -/
theorem decodeLine_eq_none_iff (l : String) :
    decodeLine l = none ↔ (pySplit '\t' l).length < 9 := by
  unfold decodeLine
  by_cases h : (pySplit '\t' l).length < 9
  · simp [h]
  · simp [h]

/-- The parse loop dies at a short data line: the lines after it are
irrelevant and the result carries the `IndexError`. -/
theorem parseRecordsGo_short (l : String) (post : List String)
    (hd : isDataLine l = true) (hc : (pySplit '\t' (pyStrip l)).length < 9) :
    ∀ (pre : List String) st feats acc,
      parseRecordsGo st feats acc (pre ++ l :: post) =
        parseRecordsGo st feats acc (pre ++ [l]) ∧
      (parseRecordsGo st feats acc (pre ++ l :: post)).2 = some .indexErr := by
  unfold isDataLine at hd
  simp only [Bool.and_eq_true, Bool.not_eq_true'] at hd
  obtain ⟨hb, hcm⟩ := hd
  have hdl : decodeLine (pyStrip l) = none := (decodeLine_eq_none_iff _).mpr hc
  intro pre
  induction pre with
  | nil =>
    intro st feats acc
    constructor <;> simp [parseRecordsGo, hb, hcm, hdl]
  | cons p rest ih =>
    intro st feats acc
    by_cases hpb : isBlank (pyStrip p) = true
    · simpa [parseRecordsGo, hpb] using ih st feats acc
    · by_cases hpc : pyStartsWith (pyStrip p) "#" = true
      · simpa [parseRecordsGo, hpb, hpc] using ih st feats acc
      · cases hpd : decodeLine (pyStrip p) with
        | none => constructor <;> simp [parseRecordsGo, hpb, hpc, hpd]
        | some fi =>
          obtain ⟨f, iv⟩ := fi
          cases st with
          | none =>
            simpa [parseRecordsGo, hpb, hpc, hpd] using
              ih (some f.seqid) (dictInsert feats f iv) acc
          | some s =>
            by_cases hseq : f.seqid.pyEq s = true
            · simpa [parseRecordsGo, hpb, hpc, hpd, hseq] using
                ih (some f.seqid) (dictInsert feats f iv) acc
            · simpa [parseRecordsGo, hpb, hpc, hpd, hseq] using
                ih none [(f, iv)] (acc ++ [feats])

/-- C8: a non-comment, non-blank line with fewer than nine tab-separated
columns makes `_parse_records` fail with the column-index error; the
failure is fatal — the call behaves exactly as if the stream ended at
the offending line, and nothing after it is recovered. -/
theorem C8_short_line_fatal (pre : List String) (l : String)
    (post : List String) (hd : isDataLine l = true)
    (hc : (pySplit '\t' (pyStrip l)).length < 9) :
    parse_records (pre ++ l :: post) = parse_records (pre ++ [l]) ∧
    (parse_records (pre ++ l :: post)).2 = some .indexErr :=
  parseRecordsGo_short l post hd hc pre none [] []

/-- Witness for C8 on a two-column line followed by a live line. -/
theorem C8_short_line_fatal_witness :
    parse_records [exLineA, "too\tshort", exLineB] =
      parse_records [exLineA, "too\tshort"] ∧
    (parse_records [exLineA, "too\tshort", exLineB]).2 = some .indexErr :=
  C8_short_line_fatal [exLineA] "too\tshort" [exLineB] (by decide) (by decide)

/-- Python equality on floats is symmetric. -/
theorem pfloatPyEq_symm (a b : PFloat) : a.pyEq b = b.pyEq a := by
  cases a <;> cases b <;> simp [PFloat.pyEq] <;>
    first
      | rfl
      | (constructor <;> intro h <;> simp [h])

/-- Python equality on parsed values is symmetric. -/
theorem pvaluePyEq_symm (a b : PValue) : a.pyEq b = b.pyEq a := by
  cases a <;> cases b <;>
    simp [PValue.pyEq, pfloatPyEq_symm] <;>
    first
      | rfl
      | (constructor <;> intro h <;> simp [h])

/-- C10: when two data lines decode to Python-equal features — which
forces equal SEQIDs, so both lines land in the same record — the yielded
record holds a single entry for that feature, mapped to the interval of
the later line; the earlier interval is overwritten by the dict
assignment. -/
theorem C10_duplicate_feature (l1 l2 : String)
    (h1 : isDataLine l1 = true) (h2 : isDataLine l2 = true)
    (f1 f2 : PFeature) (i1 i2 : Interval)
    (hd1 : decodeLine (pyStrip l1) = some (f1, i1))
    (hd2 : decodeLine (pyStrip l2) = some (f2, i2))
    (hf : f1.pyEq f2 = true) :
    parse_records [l1, l2] = ([[(f1, i2)]], none) := by
  unfold isDataLine at h1 h2
  simp only [Bool.and_eq_true, Bool.not_eq_true'] at h1 h2
  obtain ⟨hb1, hc1⟩ := h1
  obtain ⟨hb2, hc2⟩ := h2
  have hcomp := hf
  simp only [PFeature.pyEq, Bool.and_eq_true] at hcomp
  have hseq : f2.seqid.pyEq f1.seqid = true := by
    rw [pvaluePyEq_symm]
    exact hcomp.1.1.1.1.1.1
  unfold parse_records
  simp [parseRecordsGo, hb1, hc1, hb2, hc2, hd1, hd2, hseq, dictInsert, hf]

/-- Witness for C10: two lines with the same feature and different
intervals collapse to one entry carrying the second interval. -/
theorem C10_duplicate_feature_witness :
    parse_records [exLineA, exLineA2] =
      ([[(exFeatureA, (.intv 9, .intv 10))]], none) :=
  C10_duplicate_feature exLineA exLineA2 (by decide) (by decide)
    exFeatureA exFeatureA (.intv 1, .intv 2) (.intv 9, .intv 10)
    (by decide) (by decide) (by decide)

/-- A shaped ATTR value re-serializes without raising, to the string the
claim describes. -/
theorem attr_to_list_shaped (v : WVal) (h : isAttrShaped v = true) :
    attr_to_list v = .ok (specAttrStr v) := by
  cases v with
  | attrTup ts vs => rfl
  | attrPair t v => rfl
  | prim p => simp [isAttrShaped] at h

/-- Validation raises nothing but the three format errors. -/
theorem checkEntry_cases (f : WFeature) (iv : List PValue) :
    checkEntry f iv = none ∨
      ∃ err, checkEntry f iv = some err ∧ err.isFormatErr = true := by
  unfold checkEntry
  split_ifs <;> simp [WriteErr.isFormatErr]

/-- For a duplicate-free key list, having length seven and containing
all seven required headers is the same as being exactly the required
header set. -/
theorem keys_cover_iff (keys : List String) (hnd : keys.Nodup) :
    (keys.length = 7 ∧ ∀ h ∈ annotationHeaders, h ∈ keys) ↔
      ((∀ h ∈ annotationHeaders, h ∈ keys) ∧
        ∀ k ∈ keys, k ∈ annotationHeaders) := by
  have hhn : annotationHeaders.Nodup := by decide
  have hhl : annotationHeaders.length = 7 := rfl
  constructor
  · rintro ⟨hlen, hsub⟩
    refine ⟨hsub, ?_⟩
    have hsubF : annotationHeaders.toFinset ⊆ keys.toFinset := by
      intro x hx
      exact List.mem_toFinset.mpr (hsub x (List.mem_toFinset.mp hx))
    have hcard : keys.toFinset.card ≤ annotationHeaders.toFinset.card := by
      rw [List.toFinset_card_of_nodup hnd, List.toFinset_card_of_nodup hhn,
        hlen, hhl]
    have heq := Finset.eq_of_subset_of_card_le hsubF hcard
    intro k hk
    have hmem : k ∈ keys.toFinset := List.mem_toFinset.mpr hk
    rw [← heq] at hmem
    exact List.mem_toFinset.mp hmem
  · rintro ⟨hsub, hsup⟩
    refine ⟨?_, hsub⟩
    have h1 : annotationHeaders.toFinset ⊆ keys.toFinset := by
      intro x hx
      exact List.mem_toFinset.mpr (hsub x (List.mem_toFinset.mp hx))
    have h2 : keys.toFinset ⊆ annotationHeaders.toFinset := by
      intro x hx
      exact List.mem_toFinset.mpr (hsup x (List.mem_toFinset.mp hx))
    have heq : keys.toFinset = annotationHeaders.toFinset :=
      subset_antisymm h2 h1
    calc keys.length = keys.toFinset.card :=
          (List.toFinset_card_of_nodup hnd).symm
      _ = annotationHeaders.toFinset.card := by rw [heq]
      _ = 7 := by rw [List.toFinset_card_of_nodup hhn, hhl]

/-- The writer validation passes exactly on the entries the claim calls
valid, provided the feature keys are duplicate-free (they are: Python
dict keys). -/
theorem checkEntry_none_iff (f : WFeature) (iv : List PValue)
    (hnd : (f.map Prod.fst).Nodup) :
    checkEntry f iv = none ↔ specEntryValid f iv = true := by
  have hmem : (annotationHeaders.all fun h => f.any fun p => p.1 == h) = true ↔
      ∀ h ∈ annotationHeaders, h ∈ f.map Prod.fst := by
    rw [List.all_eq_true]
    constructor
    · intro hall h hh
      rcases List.any_eq_true.mp (hall h hh) with ⟨p, hp, hph⟩
      exact List.mem_map.mpr ⟨p, hp, by simpa using hph⟩
    · intro hall h hh
      rcases List.mem_map.mp (hall h hh) with ⟨p, hp, rfl⟩
      exact List.any_eq_true.mpr ⟨p, hp, by simp⟩
  have hcheck : checkEntry f iv = none ↔
      (f.length = 7 ∧ iv.length = 2 ∧
        ∀ h ∈ annotationHeaders, h ∈ f.map Prod.fst) := by
    rw [← hmem]
    unfold checkEntry
    split_ifs with a b c
    · simp [a]
    · simp [a, b]
    · rw [Bool.not_eq_true'] at c
      simp [c]
    · have hall : (annotationHeaders.all fun h => f.any fun p => p.1 == h)
          = true := by
        revert c
        cases annotationHeaders.all fun h => f.any fun p => p.1 == h <;> simp
      rw [not_ne_iff] at a b
      simp [a, b, hall]
  have hspec : specEntryValid f iv = true ↔
      ((∀ h ∈ annotationHeaders, h ∈ f.map Prod.fst) ∧
        (∀ k ∈ f.map Prod.fst, k ∈ annotationHeaders) ∧ iv.length = 2) := by
    unfold specEntryValid
    rw [Bool.and_eq_true, Bool.and_eq_true, List.all_eq_true, List.all_eq_true]
    constructor
    · rintro ⟨⟨hA, hB⟩, hC⟩
      refine ⟨fun h hh => ?_, fun k hk => ?_, by simpa using hC⟩
      · simpa using hA h hh
      · simpa using hB k hk
    · rintro ⟨hA, hB, hC⟩
      refine ⟨⟨fun h hh => ?_, fun k hk => ?_⟩, by simpa using hC⟩
      · simpa using hA h hh
      · simpa using hB k hk
  rw [hcheck, hspec]
  constructor
  · rintro ⟨h7, h2, hsub⟩
    have := (keys_cover_iff (f.map Prod.fst) hnd).mp ⟨by simpa using h7, hsub⟩
    exact ⟨this.1, this.2, h2⟩
  · rintro ⟨hsub, hsup, h2⟩
    have := (keys_cover_iff (f.map Prod.fst) hnd).mpr ⟨hsub, hsup⟩
    exact ⟨by simpa using this.1, h2, this.2⟩

/-- A validated entry has every required header among its keys. -/
theorem checkEntry_none_headers (f : WFeature) (iv : List PValue)
    (hc : checkEntry f iv = none) :
    ∀ h ∈ annotationHeaders, h ∈ f.map Prod.fst := by
  unfold checkEntry at hc
  by_cases a : f.length ≠ 7
  · rw [if_pos a] at hc; exact absurd hc (by simp)
  · rw [if_neg a] at hc
    by_cases b : iv.length ≠ 2
    · rw [if_pos b] at hc; exact absurd hc (by simp)
    · rw [if_neg b] at hc
      by_cases c : (!annotationHeaders.all fun h => f.any fun p => p.1 == h)
          = true
      · rw [if_pos c] at hc; exact absurd hc (by simp)
      · intro h hh
        have hall : (annotationHeaders.all fun h => f.any fun p => p.1 == h)
            = true := by
          revert c
          cases annotationHeaders.all fun h => f.any fun p => p.1 == h <;> simp
        rcases List.any_eq_true.mp (List.all_eq_true.mp hall h hh) with
          ⟨p, hp, hph⟩
        exact List.mem_map.mpr ⟨p, hp, by simpa using hph⟩

/-- On an entry that passed validation, with a shaped ATTR value, the
writer builds exactly the nine-column line of the claim. -/
theorem entryLine_valid (f : WFeature) (iv : List PValue)
    (hc : checkEntry f iv = none)
    (hsh : ∀ p ∈ f, p.1 = "ATTR" → isAttrShaped p.2 = true) :
    entryLine f iv = .ok (specLine f iv) := by
  have hattrKey : "ATTR" ∈ f.map Prod.fst :=
    checkEntry_none_headers f iv hc "ATTR" (by decide)
  obtain ⟨p0, hp0⟩ : ∃ p0, f.find? (fun p => p.1 == "ATTR") = some p0 := by
    have hfind : (f.find? fun p => p.1 == "ATTR").isSome = true := by
      rw [List.find?_isSome]
      rcases List.mem_map.mp hattrKey with ⟨p, hp, hpa⟩
      exact ⟨p, hp, by simp [hpa]⟩
    exact Option.isSome_iff_exists.mp hfind
  have hp0attr : p0.1 = "ATTR" := by simpa using List.find?_some hp0
  have hshaped : isAttrShaped (wLookup f "ATTR") = true := by
    have hw : wLookup f "ATTR" = p0.2 := by simp [wLookup, hp0]
    rw [hw]
    exact hsh p0 (List.mem_of_find?_eq_some hp0) hp0attr
  have hstep : entryLine f iv =
      (collectCells
        [.ok (wLookup f "SEQID").pyStr, .ok (wLookup f "SOURCE").pyStr,
         .ok (wLookup f "TYPE").pyStr, .ok (iv.getD 0 (.strv "")).pyStr,
         .ok (iv.getD 1 (.strv "")).pyStr, .ok (wLookup f "SCORE").pyStr,
         .ok (wLookup f "STRAND").pyStr, .ok (wLookup f "PHASE").pyStr,
         attr_to_list (wLookup f "ATTR")]).map (String.intercalate "\t") := rfl
  rw [hstep, attr_to_list_shaped _ hshaped]
  simp [collectCells, Except.map, specLine]

/-- The writer loop: on an all-valid record it appends exactly one
claim-described line per entry and raises nothing; as soon as some entry
is invalid it raises a format error. -/
theorem writeGo_contract (r : WRecord) :
    (∀ f ∈ r.map Prod.fst, (f.map Prod.fst).Nodup ∧
        ∀ p ∈ f, p.1 = "ATTR" → isAttrShaped p.2 = true) →
    ∀ out,
      ((∀ e ∈ r, specEntryValid e.1 e.2 = true) →
        writeGo r out = (out ++ r.map fun e => specLine e.1 e.2, none)) ∧
      ((∃ e ∈ r, specEntryValid e.1 e.2 = false) →
        ∃ err, (writeGo r out).2 = some err ∧ err.isFormatErr = true) := by
  induction r with
  | nil =>
    intro _ out
    exact ⟨fun _ => by simp [writeGo], fun h => by simp at h⟩
  | cons e rest ih =>
    intro hwf out
    obtain ⟨f, iv⟩ := e
    have hf := hwf f (by simp)
    have hwfr : ∀ g ∈ rest.map Prod.fst, (g.map Prod.fst).Nodup ∧
        ∀ p ∈ g, p.1 = "ATTR" → isAttrShaped p.2 = true :=
      fun g hg => hwf g (by simp [hg])
    by_cases hv : specEntryValid f iv = true
    · have hcheck : checkEntry f iv = none :=
        (checkEntry_none_iff f iv hf.1).mpr hv
      have hline := entryLine_valid f iv hcheck hf.2
      constructor
      · intro hall
        have hrest := (ih hwfr (out ++ [specLine f iv])).1
          fun e he => hall e (by simp [he])
        simp [writeGo, hcheck, hline, hrest]
      · rintro ⟨e0, he0, hbad⟩
        rcases List.mem_cons.mp he0 with rfl | hmem
        · simp [hv] at hbad
        · have hrest := (ih hwfr (out ++ [specLine f iv])).2 ⟨e0, hmem, hbad⟩
          simpa [writeGo, hcheck, hline] using hrest
    · have hv2 : specEntryValid f iv = false := by
        revert hv; cases specEntryValid f iv <;> simp
      have hne : checkEntry f iv ≠ none := fun h0 =>
        absurd ((checkEntry_none_iff f iv hf.1).mp h0) (by simp [hv2])
      rcases checkEntry_cases f iv with h0 | ⟨err, herr, hfmt⟩
      · exact absurd h0 hne
      · exact ⟨fun hall => absurd (hall (f, iv) (by simp)) (by simp [hv2]),
          fun _ => ⟨err, by simp [writeGo, herr], hfmt⟩⟩

/-- C4: on a record whose features are Python dicts (duplicate-free key
lists) with pair-shaped ATTR values, the writer fails with a format
error exactly when some feature misses a required field, some interval
is not a pair, or some key set differs from the required header set; on
a fully valid record it writes the `##gff-version 3` header line
followed by one nine-column tab-separated line per entry, the columns in
the fixed order SEQID, SOURCE, TYPE, START, END, SCORE, STRAND, PHASE,
ATTR, with START and END from the interval and ATTR re-serialized as
`tag1=value1;tag2=value2;...`. -/
theorem C4_writer_contract (r : WRecord)
    (hwf : ∀ f ∈ r.map Prod.fst, (f.map Prod.fst).Nodup ∧
        ∀ p ∈ f, p.1 = "ATTR" → isAttrShaped p.2 = true) :
    ((∀ e ∈ r, specEntryValid e.1 e.2 = true) →
      IntervalMetadata_to_gff r =
        ("##gff-version 3" :: (r.map fun e => specLine e.1 e.2), none)) ∧
    ((∃ e ∈ r, specEntryValid e.1 e.2 = false) →
      ∃ err, (IntervalMetadata_to_gff r).2 = some err ∧
        err.isFormatErr = true) := by
  have h := writeGo_contract r hwf ["##gff-version 3"]
  exact ⟨fun hall => by simpa [IntervalMetadata_to_gff] using h.1 hall, h.2⟩

/-- Witness for C4: a complete single-entry record writes the header
plus its data line; the record missing STRAND only raises a format
error. -/
theorem C4_writer_contract_witness :
    IntervalMetadata_to_gff [(exGoodFeature, exInterval)] =
      (["##gff-version 3",
        "gi\tminced\tCRISPR\t156460\t156767\t5\t.\t.\tID=CRISPR1"], none) ∧
    ∃ err, (IntervalMetadata_to_gff [(exBadFeature, exInterval)]).2 =
        some err ∧ err.isFormatErr = true := by
  constructor
  · have h := (C4_writer_contract [(exGoodFeature, exInterval)]
      (by decide)).1 (by decide)
    exact h.trans (by decide)
  · exact (C4_writer_contract [(exBadFeature, exInterval)] (by decide)).2
      ⟨(exBadFeature, exInterval), by simp, by decide⟩

/-- C9: the parser is deterministic in the input text — two independent
stream instances carrying equal text parse to equal record sequences. -/
theorem C9_deterministic (s t : TextStream) (h : s.content = t.content) :
    parseStream s = parseStream t := by
  unfold parseStream
  rw [h]

/-- Witness for C9 at two distinct stream instances over the same
text. -/
theorem C9_deterministic_witness :
    parseStream ⟨0, exStream⟩ = parseStream ⟨1, exStream⟩ :=
  C9_deterministic ⟨0, exStream⟩ ⟨1, exStream⟩ rfl

end Micronota.Gff3
